import Mathlib

set_option maxRecDepth 200000

/-!
Verification of the segspec dependency-extraction and policy-synthesis core.

This file shallowly embeds, in Lean, the parts of the Go sources that the
checked properties are about:

* the dependency data model (`NetworkDependency`, `DependencySet` with its
  `Add` / `Dependencies` / `IngressFor` / `EgressFor` / `Len` operations),
* the JDBC-URL recognizer `parseJDBC` and the generic value recognizer
  `extractFromValue` from the Spring parser,
* the Kubernetes-flavored value recognizer `extractDepsFromValue` together
  with a model of Go's `net/url.Parse` restricted to the fields the code
  reads (`Scheme`, `Host`, `Hostname()`, `Port()`), and models of the two
  regular expressions `hostPortRe`/`hostPortPattern` and `k8sDNSRe` with
  leftmost-first, greedy-with-backtracking semantics,
* the Spring extractor (`extractSpringDeps` over the decoded YAML schema and
  the key-lookup part of `parseSpringProperties`),
* the NetworkPolicy renderers (`NetworkPolicy`, `PerServiceNetworkPolicy`,
  `renderEgressTo`, `renderIngressFrom`, `sanitizeName`, `dedupeStrings`),
* a small heap model of Go slices backing `DependencySet`, used for the
  freshness (frame) property of the query operations.

Strings are modelled as Lean `String` / `List Char` (one `Char` per Go rune);
Go byte-wise string comparison coincides with the `List Char` lexicographic
order on the ASCII data handled here.  Machine-integer overflow of ports is
not exercised by any property and ports are modelled as `Int`.
Two deliberate, commented boundaries of the `net/url.Parse` model: hosts
containing `%` (percent-escapes) and IPv6 bracket addresses with zone
identifiers are treated as parse failures, and `net.ParseIP` is modelled for
dotted-quad IPv4 only; no checked property exercises those inputs.
-/

namespace Segspec

/-! ### Generic character/string helpers (ASCII semantics of the Go code) -/

/-- ASCII lower-casing of one character, the effect of Go `strings.ToLower`
on the ASCII range (non-ASCII letters are irrelevant here: after lowering,
`sanitizeName` maps every character outside `[a-z0-9-]` to `-` anyway). -/
def lowerChar (c : Char) : Char :=
  if 'A' ≤ c ∧ c ≤ 'Z' then Char.ofNat (c.toNat + 32) else c

/-- ASCII decimal digit test (Go regexp `\d`). -/
def isDig (c : Char) : Bool := '0' ≤ c && c ≤ '9'

/-- ASCII letter test. -/
def isAlpha (c : Char) : Bool := ('a' ≤ c && c ≤ 'z') || ('A' ≤ c && c ≤ 'Z')

/-- ASCII alphanumeric test (Go regexp `[a-zA-Z0-9]`). -/
def isAlnum (c : Char) : Bool := isAlpha c || isDig c

/-- Go regexp `\w` (ASCII word character). -/
def isWordChar (c : Char) : Bool := isAlnum c || c = '_'

/-- Does `p` occur as a contiguous run at the start of `s`?
(Go `strings.HasPrefix`.) -/
def leadsWith : List Char → List Char → Bool
  | [], _ => true
  | _ :: _, [] => false
  | p :: ps, c :: cs => p = c && leadsWith ps cs

/-- Does `p` occur as a contiguous run anywhere inside `s`?
(Go `strings.Contains`.) -/
def occursIn (p s : List Char) : Bool :=
  leadsWith p s ||
    match s with
    | [] => false
    | _ :: cs => occursIn p cs

/-- Does `p` occur as the final run of `s`? (Go `strings.HasSuffix`.) -/
def endsIn (p s : List Char) : Bool :=
  leadsWith p.reverse s.reverse

/-- String-level wrapper for `leadsWith`. -/
def strLeads (p s : String) : Bool := leadsWith p.data s.data

/-- String-level wrapper for `occursIn`. -/
def strOccurs (p s : String) : Bool := occursIn p.data s.data

/-- String-level wrapper for `endsIn`. -/
def strEnds (p s : String) : Bool := endsIn p.data s.data

/-- Decimal digits to a natural number (`strconv.Atoi` on an all-digit
string, overflow not modelled). -/
def digitsToNat (l : List Char) : Nat :=
  l.foldl (fun acc c => acc * 10 + (c.toNat - '0'.toNat)) 0

/-- Go `strconv.Atoi`: optional sign, then one or more digits, nothing
else.  Returns `none` exactly when Go returns a non-nil error. -/
def atoi (s : String) : Option Int :=
  match s.data with
  | [] => none
  | '+' :: ds => if ds ≠ [] ∧ ds.all isDig then some (digitsToNat ds) else none
  | '-' :: ds => if ds ≠ [] ∧ ds.all isDig then some (-(digitsToNat ds : Int)) else none
  | ds => if ds.all isDig then some (digitsToNat ds) else none

/-- Go `strings.TrimSpace` restricted to ASCII whitespace. -/
def isSpaceChar (c : Char) : Bool :=
  c = ' ' || c = '\t' || c = '\n' || c = '\r' || c = '\x0b' || c = '\x0c'

/-- Trim ASCII whitespace from both ends. -/
def trimSpace (l : List Char) : List Char :=
  ((l.dropWhile isSpaceChar).reverse.dropWhile isSpaceChar).reverse

/-! ### Data model (`internal/model/dependency.go`) -/

/-- Confidence indicates how certain the tool is about a discovered
dependency (Go `model.Confidence`). -/
inductive Confidence where
  | high
  | medium
  | low
deriving DecidableEq, Repr

/-- One discovered network-connection requirement
(Go `model.NetworkDependency`). -/
structure NetworkDependency where
  Source : String := ""
  Target : String := ""
  Port : Int := 0
  Protocol : String := ""
  Description : String := ""
  Confidence : Confidence := .high
  SourceFile : String := ""
deriving DecidableEq, Repr

/-- `NetworkDependency.Key`: the deduplication identifier
`fmt.Sprintf("%s->%s:%d/%s", Source, Target, Port, Protocol)`. -/
def NetworkDependency.Key (d : NetworkDependency) : String :=
  d.Source ++ "->" ++ d.Target ++ ":" ++ toString d.Port ++ "/" ++ d.Protocol

/-- `model.DependencySet`: the Go struct holds the service name, the slice
of unique facts in insertion order, and the `seen` key set (a Go
`map[string]bool`, modelled as the list of keys inserted so far). -/
structure DependencySet where
  ServiceName : String
  deps : List NetworkDependency
  seen : List String
deriving Repr

/-- `model.NewDependencySet`. -/
def NewDependencySet (name : String) : DependencySet :=
  { ServiceName := name, deps := [], seen := [] }

/-- `DependencySet.Add`: insert a dependency, skipping duplicates by
`Key()` (first write wins). -/
def DependencySet.Add (ds : DependencySet) (dep : NetworkDependency) : DependencySet :=
  let key := dep.Key
  if ds.seen.contains key then ds
  else { ds with deps := ds.deps ++ [dep], seen := ds.seen ++ [key] }

/-- `DependencySet.Len`: number of unique dependencies. -/
def DependencySet.Len (ds : DependencySet) : Nat := ds.deps.length

/-- Lexicographic `≤` on rune lists — Go's `<`/`<=` on the (ASCII)
strings compared here.  Written as a structural boolean function so that
concrete sorts evaluate inside the kernel. -/
def listLE : List Char → List Char → Bool
  | [], _ => true
  | _ :: _, [] => false
  | a :: as, b :: bs => if a = b then listLE as bs else decide (a < b)

theorem listLE_total : ∀ a b : List Char, listLE a b = true ∨ listLE b a = true
  | [], _ => Or.inl rfl
  | _ :: _, [] => Or.inr rfl
  | a :: as, b :: bs => by
    by_cases hab : a = b
    · subst hab
      simpa [listLE] using listLE_total as bs
    · rcases lt_or_gt_of_ne hab with h | h
      · exact Or.inl (by simp [listLE, hab, h])
      · exact Or.inr (by simp [listLE, Ne.symm hab, h])

theorem listLE_trans :
    ∀ a b c : List Char, listLE a b = true → listLE b c = true → listLE a c = true
  | [], _, _, _, _ => rfl
  | _ :: _, [], _, h₁, _ => by simp [listLE] at h₁
  | _ :: _, _ :: _, [], _, h₂ => by simp [listLE] at h₂
  | a :: as, b :: bs, c :: cs, h₁, h₂ => by
    simp only [listLE] at h₁ h₂ ⊢
    by_cases hab : a = b <;> by_cases hbc : b = c
    · subst hab; subst hbc
      simp only [if_pos rfl] at h₁ h₂ ⊢
      exact listLE_trans as bs cs h₁ h₂
    · subst hab
      simp_all
    · subst hbc
      simp_all
    · rw [if_neg hab] at h₁
      rw [if_neg hbc] at h₂
      have hac : a < c := lt_trans (of_decide_eq_true h₁) (of_decide_eq_true h₂)
      rw [if_neg (ne_of_lt hac)]
      exact decide_eq_true hac

/-- The comparison used by every `sort.Slice` call in the model file:
order facts by their canonical key string (Go compares keys with `<`;
sortedness is stated with the reflexive closure `≤`). -/
def keyLE (a b : NetworkDependency) : Prop := listLE a.Key.data b.Key.data = true

instance : DecidableRel keyLE := fun _ _ =>
  inferInstanceAs (Decidable (_ = true))

instance : IsTotal NetworkDependency keyLE :=
  ⟨fun a b => listLE_total a.Key.data b.Key.data⟩

instance : IsTrans NetworkDependency keyLE :=
  ⟨fun a b c => listLE_trans a.Key.data b.Key.data c.Key.data⟩

/-- `sort.Strings`' ordering on strings. -/
def strLE (a b : String) : Prop := listLE a.data b.data = true

instance : DecidableRel strLE := fun _ _ =>
  inferInstanceAs (Decidable (_ = true))

instance : IsTotal String strLE := ⟨fun a b => listLE_total a.data b.data⟩

instance : IsTrans String strLE := ⟨fun a b c => listLE_trans a.data b.data c.data⟩

/-- Sort a fact list ascending by canonical key.  Go's `sort.Slice` with
the `Key() < Key()` comparator sorts (not necessarily stably) by key;
within a `DependencySet` keys are unique, so any comparison sort computes
this same result. -/
def sortByKey (l : List NetworkDependency) : List NetworkDependency :=
  l.insertionSort keyLE

/-- `DependencySet.Dependencies`: all facts, sorted by `Key()` for
deterministic output (the Go code sorts a fresh copy; the aliasing side of
that is treated separately in the heap model below). -/
def DependencySet.Dependencies (ds : DependencySet) : List NetworkDependency :=
  sortByKey ds.deps

/-- `DependencySet.IngressFor`: all facts whose `Target` matches the given
service name, sorted by `Key()`. -/
def DependencySet.IngressFor (ds : DependencySet) (service : String) : List NetworkDependency :=
  sortByKey (ds.deps.filter (fun dep => dep.Target = service))

/-- `DependencySet.EgressFor`: all facts whose `Source` matches the given
service name, sorted by `Key()`. -/
def DependencySet.EgressFor (ds : DependencySet) (service : String) : List NetworkDependency :=
  sortByKey (ds.deps.filter (fun dep => dep.Source = service))

/-! ### JDBC recognizer (`internal/parser/spring.go`)

`jdbcPattern = ^jdbc:(\w+)://([^/:]+)(?::(\d+))?`.  The pattern is
anchored, and each quantified group is followed by a character its own
class excludes (`\w+` by `:`, `[^/:]+` by `:` or `/`, `\d+` by nothing),
so backtracking can never shorten a greedy run into a successful match and
the match is: literal `jdbc:`, maximal `\w` run, literal `://`, maximal
`[^/:]` run, then optionally `:` followed by a maximal digit run. -/

/-- Result of `jdbcPattern.FindStringSubmatch`: driver, host, and the port
submatch (`[]` when the optional group did not participate). -/
def jdbcMatch (s : List Char) : Option (List Char × List Char × List Char) :=
  if leadsWith "jdbc:".data s then
    let r0 := s.drop 5
    let drv := r0.takeWhile isWordChar
    let r1 := r0.dropWhile isWordChar
    if drv = [] then none
    else if leadsWith "://".data r1 then
      let r2 := r1.drop 3
      let host := r2.takeWhile (fun c => c ≠ '/' && c ≠ ':')
      let r3 := r2.dropWhile (fun c => c ≠ '/' && c ≠ ':')
      if host = [] then none
      else
        match r3 with
        | ':' :: r4 => some (drv, host, r4.takeWhile isDig)
        | _ => some (drv, host, [])
    else none
  else none

/-- ASCII lower-casing of a whole string (Go `strings.ToLower`; the JDBC
driver submatch consists of `\w` characters, hence is ASCII). -/
def toLowerStr (s : String) : String := ⟨s.data.map lowerChar⟩

/-- `jdbcDefaultPorts`: JDBC driver names to their default ports. -/
def jdbcDefaultPorts (driver : String) : Option Int :=
  if driver = "postgresql" then some 5432
  else if driver = "postgres" then some 5432
  else if driver = "mysql" then some 3306
  else if driver = "mariadb" then some 3306
  else if driver = "oracle" then some 1521
  else if driver = "sqlserver" then some 1433
  else if driver = "mssql" then some 1433
  else none

/-- `jdbcSkipDrivers`: in-memory/embedded JDBC drivers that are not
network dependencies. -/
def jdbcSkipDrivers (driver : String) : Bool :=
  driver = "h2" || driver = "derby"

/-- `jdbcDescriptions`: JDBC driver names to human-readable descriptions. -/
def jdbcDescriptions (driver : String) : Option String :=
  if driver = "postgresql" then some "PostgreSQL"
  else if driver = "postgres" then some "PostgreSQL"
  else if driver = "mysql" then some "MySQL"
  else if driver = "mariadb" then some "MariaDB"
  else if driver = "sqlserver" then some "SQL Server"
  else if driver = "oracle" then some "Oracle"
  else if driver = "h2" then some "H2"
  else none

/-- `parseJDBC`: recognize a JDBC URL and produce at most one fact. -/
def parseJDBC (raw sourceFile : String) : Option NetworkDependency :=
  match jdbcMatch raw.data with
  | none => none
  | some (drvRaw, host, portDigits) =>
    let driver := toLowerStr ⟨drvRaw⟩
    if jdbcSkipDrivers driver then none
    else
      let withPort : Int × Confidence → Option NetworkDependency := fun pc =>
        some { Source := ""
               Target := ⟨host⟩
               Port := pc.1
               Protocol := "TCP"
               Description := (jdbcDescriptions driver).getD driver
               Confidence := pc.2
               SourceFile := sourceFile }
      if portDigits ≠ [] then withPort (digitsToNat portDigits, .high)
      else
        match jdbcDefaultPorts driver with
        | some dp => withPort (dp, .medium)
        | none => none

/-! ### Model of Go `net/url.Parse` (the fields the recognizers read)

Only `Scheme`, `Host`, `Hostname()` and `Port()` of the parse result are
consumed by the Go code.  The model follows `net/url`'s `parse` for
absolute URLs: control bytes rejected, fragment cut at the first `#`,
scheme per `getScheme`, query cut at the first `?`, authority between `//`
and the next `/`, userinfo split at the last `@` and validated, host
validated by `parseHost` (port after the last `:` must be all digits),
`Hostname()`/`Port()` per `splitHostPort`.  Two commented boundaries:
hosts or userinfo containing `%` (percent-escapes) and IPv6 zone handling
are modelled as parse failures; no checked input contains them. -/

/-- Scheme characters after the first (`getScheme`). -/
def isSchemeChar (c : Char) : Bool :=
  isAlpha c || isDig c || c = '+' || c = '-' || c = '.'

/-- Result of `getScheme`: hard error, no scheme present, or a scheme and
the remainder after the colon. -/
inductive SchemeRes where
  | err
  | noScheme
  | found (scheme rest : List Char)
deriving DecidableEq

/-- Go `net/url.getScheme`, scanning for `scheme:`; `first` tracks `i == 0`. -/
def getSchemeGo : List Char → List Char → Bool → SchemeRes
  | [], _, _ => .noScheme
  | c :: cs, acc, first =>
    if isAlpha c then getSchemeGo cs (c :: acc) false
    else if isDig c || c = '+' || c = '-' || c = '.' then
      if first then .noScheme else getSchemeGo cs (c :: acc) false
    else if c = ':' then
      if first then .err else .found acc.reverse cs
    else .noScheme

/-- Go `net/url.validOptionalPort`: empty, or `:` followed by digits only. -/
def validOptionalPort (l : List Char) : Bool :=
  match l with
  | [] => true
  | ':' :: ds => ds.all isDig
  | _ => false

/-- Split a list at the LAST occurrence of `sep`, returning the parts
before and after it; `none` when `sep` does not occur. -/
def splitLastChar (sep : Char) (l : List Char) : Option (List Char × List Char) :=
  let afterRev := l.reverse.takeWhile (fun c => c ≠ sep)
  let rest := l.reverse.dropWhile (fun c => c ≠ sep)
  match rest with
  | [] => none
  | _ :: beforeRev => some (beforeRev.reverse, afterRev.reverse)

/-- Go `net/url.validUserinfo` (character whitelist for the part before `@`). -/
def validUserinfo (l : List Char) : Bool :=
  l.all fun c =>
    isAlnum c || c = '-' || c = '.' || c = '_' || c = ':' || c = '~' || c = '!' ||
      c = '$' || c = '&' || c = '\'' || c = '(' || c = ')' || c = '*' || c = '+' ||
      c = ',' || c = ';' || c = '=' || c = '%' || c = '@'

/-- Go `net/url.parseHost`: validate the host part (after userinfo) and
return the `Host` field value.  Hosts containing `%` are a modelled parse
failure (percent-escape boundary, see the section comment). -/
def parseHostModel (host : List Char) : Option (List Char) :=
  if host.contains '%' then none
  else if leadsWith "[".data host then
    match splitLastChar ']' host with
    | none => none
    | some (_, afterBracket) =>
      if validOptionalPort afterBracket then some host else none
  else
    match splitLastChar ':' host with
    | none => some host
    | some (_, after) => if after.all isDig then some host else none

/-- Go `net/url.splitHostPort`, backing `URL.Hostname()` and `URL.Port()`. -/
def splitHostPortModel (hostPort : List Char) : List Char × List Char :=
  let hp :=
    match splitLastChar ':' hostPort with
    | some (before, after) =>
      if after.all isDig then (before, after) else (hostPort, [])
    | none => (hostPort, [])
  let h := hp.1
  if leadsWith "[".data h ∧ endsIn "]".data h then ((h.drop 1).dropLast, hp.2) else hp

/-- The `net/url.URL` fields consumed by the recognizers. -/
structure URLView where
  Scheme : String
  Host : String
  HostName : String
  PortDigits : String
deriving DecidableEq, Repr

/-- Model of `url.Parse` restricted to the consumed fields; `none` exactly
when Go returns a non-nil error (within the modelled boundaries). -/
def urlParseModel (s : List Char) : Option URLView :=
  if s.any (fun c => c.toNat < 32 || c.toNat = 127) then none
  else
    let s1 := s.takeWhile (fun c => c ≠ '#')
    match getSchemeGo s1 [] true with
    | .err => none
    | res =>
      let schemeRest : List Char × List Char :=
        match res with
        | .found sc r => (sc.map lowerChar, r)
        | _ => ([], s1)
      let scheme := schemeRest.1
      let rest := schemeRest.2.takeWhile (fun c => c ≠ '?')
      if ¬ leadsWith "/".data rest then
        if scheme ≠ [] then some ⟨⟨scheme⟩, "", "", ""⟩
        else if (rest.takeWhile (fun c => c ≠ '/')).contains ':' then none
        else some ⟨"", "", "", ""⟩
      else if (scheme ≠ [] ∨ ¬ leadsWith "///".data rest) ∧ leadsWith "//".data rest then
        let authority := (rest.drop 2).takeWhile (fun c => c ≠ '/')
        let hostPart : Option (List Char) :=
          match splitLastChar '@' authority with
          | none => some authority
          | some (ui, hp) =>
            if validUserinfo ui ∧ ¬ ui.contains '%' then some hp else none
        match hostPart with
        | none => none
        | some hp =>
          match parseHostModel hp with
          | none => none
          | some hostVal =>
            let hnpd := splitHostPortModel hostVal
            some ⟨⟨scheme⟩, ⟨hostVal⟩, ⟨hnpd.1⟩, ⟨hnpd.2⟩⟩
      else some ⟨⟨scheme⟩, "", "", ""⟩

/-! ### Models of the host:port and Kubernetes-DNS regular expressions

Go regexps have leftmost-first (backtracking) submatch semantics: the
match starting earliest wins, and at that start position greedy
quantifiers take the longest run that lets the remainder match.  In
`hostPortRe`/`hostPortPattern` each quantified class excludes the
character that must follow it (`:` after the host run, end of pattern
after the digits), so only the maximal runs need be considered; in
`k8sDNSRe` the first group's class contains `.`, so the model backtracks
the first group from longest to shortest. -/

/-- `[-a-zA-Z0-9.]` — the host class of `hostPortRe` and group 1 of `k8sDNSRe`. -/
def classDot (c : Char) : Bool := isAlnum c || c = '-' || c = '.'

/-- `[-a-zA-Z0-9]` — group 2 of `k8sDNSRe`. -/
def classNoDot (c : Char) : Bool := isAlnum c || c = '-'

/-- `[-a-zA-Z0-9_.]` — the host class of `hostPortPattern` (spring.go). -/
def classP5 (c : Char) : Bool := isAlnum c || c = '-' || c = '_' || c = '.'

/-- Match `hostPortRe = ([a-zA-Z0-9][-a-zA-Z0-9.]*):(\d{2,5})` at the start
of `s`; returns (host, port digits, remainder after the match). -/
def hostPortK8sAt (s : List Char) : Option (List Char × List Char × List Char) :=
  match s with
  | [] => none
  | c :: t =>
    if isAlnum c then
      let run := t.takeWhile classDot
      match t.dropWhile classDot with
      | ':' :: r2 =>
        let dtake := (r2.takeWhile isDig).take 5
        if 2 ≤ dtake.length then some (c :: run, dtake, r2.drop dtake.length)
        else none
      | _ => none
    else none

/-- `hostPortRe.FindStringSubmatch`: the leftmost match. -/
def hostPortK8sSearch : List Char → Option (List Char × List Char)
  | [] => none
  | c :: t =>
    match hostPortK8sAt (c :: t) with
    | some (h, p, _) => some (h, p)
    | none => hostPortK8sSearch t

/-- `hostPortRe.FindAllStringSubmatch`: all leftmost, non-overlapping
matches.  Fueled recursion (each match consumes at least one character, so
fuel = input length suffices; callers pass exactly that). -/
def hostPortK8sAll : Nat → List Char → List (List Char × List Char)
  | 0, _ => []
  | _ + 1, [] => []
  | fuel + 1, c :: t =>
    match hostPortK8sAt (c :: t) with
    | some (h, p, rest) => (h, p) :: hostPortK8sAll fuel rest
    | none => hostPortK8sAll fuel t

/-- Match `hostPortPattern = ([a-zA-Z0-9][-a-zA-Z0-9_.]+):(\d{2,5})` at
the start of `s` (note the `+`: the host has at least two characters). -/
def hostPortP5At (s : List Char) : Option (List Char × List Char) :=
  match s with
  | [] => none
  | c :: t =>
    if isAlnum c then
      let run := t.takeWhile classP5
      if run = [] then none
      else
        match t.dropWhile classP5 with
        | ':' :: r2 =>
          let dtake := (r2.takeWhile isDig).take 5
          if 2 ≤ dtake.length then some (c :: run, dtake) else none
        | _ => none
    else none

/-- `hostPortPattern.FindStringSubmatch`: the leftmost match. -/
def hostPortP5Search : List Char → Option (List Char × List Char)
  | [] => none
  | c :: t =>
    match hostPortP5At (c :: t) with
    | some r => some r
    | none => hostPortP5Search t

/-- After a group-1 candidate of `k8sDNSRe`, match
`\.([a-zA-Z0-9][-a-zA-Z0-9]*)\.svc\.cluster\.local` against the
remainder, returning group 2.  Group 2's class excludes `.`, so only its
maximal run can be followed by the literal. -/
def dnsAfterG1 (rest : List Char) : Option (List Char) :=
  match rest with
  | c1 :: d :: r3 =>
    if c1 = '.' ∧ isAlnum d = true then
      if leadsWith ".svc.cluster.local".data (r3.dropWhile classNoDot) then
        some (d :: r3.takeWhile classNoDot)
      else none
    else none
  | _ => none

/-- Backtrack group 1 of `k8sDNSRe` from the longest candidate down:
`g1rev` is the reversed current candidate, `rest` the remainder after it.
Returns (group 1, group 2) of the first (i.e. greediest) success. -/
def dnsTryG1 : List Char → List Char → Option (List Char × List Char)
  | [], _ => none
  | c :: g1rev, rest =>
    match dnsAfterG1 rest with
    | some g2 => some ((c :: g1rev).reverse, g2)
    | none => dnsTryG1 g1rev (c :: rest)

/-- Match `k8sDNSRe` at the start of `s` (group 1 starts exactly here). -/
def dnsMatchAt : List Char → Option (List Char × List Char)
  | [] => none
  | c :: t =>
    if isAlnum c then
      dnsTryG1 (c :: t.takeWhile classDot).reverse (t.dropWhile classDot)
    else none

/-- `k8sDNSRe.FindStringSubmatch`: the leftmost match, greediest first
group at that position. -/
def dnsSearch : List Char → Option (List Char × List Char)
  | [] => none
  | c :: t =>
    match dnsMatchAt (c :: t) with
    | some r => some r
    | none => dnsSearch t

/-! ### The two value recognizers -/

/-- The URL schemes accepted by the Kubernetes-flavored recognizer. -/
def k8sURLSchemeOK (scheme : String) : Bool :=
  scheme = "http" || scheme = "https" || scheme = "postgresql" || scheme = "postgres" ||
    scheme = "redis" || scheme = "amqp" || scheme = "mongodb" || scheme = "mysql" ||
    scheme = "kafka"

/-- The condition of the recognizer's first branch: `url.Parse` succeeded,
the host is non-empty and the scheme is recognized. -/
def k8sUrlHit (value : String) : Option URLView :=
  match urlParseModel value.data with
  | some u => if u.Host ≠ "" ∧ k8sURLSchemeOK u.Scheme then some u else none
  | none => none

/-- The port attached to a DNS-branch fact: the port of the first
`hostPortRe` match anywhere in the value, or 0 when there is none. -/
def dnsPortOf (value : String) : Int :=
  match hostPortK8sSearch value.data with
  | some hp => (digitsToNat hp.2 : Int)
  | none => 0

/-- `internal/parser/k8s.go extractDepsFromValue`: scan a string value for
URLs, host:port pairs, and K8s DNS patterns (in that priority order). -/
def extractDepsFromValue (value source context : String) (confidence : Confidence)
    (path : String) : List NetworkDependency :=
  match k8sUrlHit value with
  | some u =>
    let port : Int := if u.PortDigits ≠ "" then (digitsToNat u.PortDigits.data : Int) else 0
    [{ Source := source, Target := u.HostName, Port := port, Protocol := "TCP",
       Description := context ++ ": URL " ++ value, Confidence := confidence,
       SourceFile := path }]
  | none =>
    match dnsSearch value.data with
    | some (g1, g2) =>
      let target : String := (⟨g1⟩ : String) ++ "." ++ (⟨g2⟩ : String)
      [{ Source := source, Target := target, Port := dnsPortOf value, Protocol := "TCP",
         Description := context ++ ": K8s service DNS " ++ value, Confidence := confidence,
         SourceFile := path }]
    | none =>
      (hostPortK8sAll value.data.length value.data).filterMap fun hp =>
        let host : String := ⟨hp.1⟩
        let port : Int := (digitsToNat hp.2 : Int)
        if strLeads "sha" host || port < 1 || port > 65535 then none
        else
          some { Source := source, Target := host, Port := port, Protocol := "TCP",
                 Description := context ++ ": host:port " ++ host ++ ":" ++ toString port,
                 Confidence := confidence, SourceFile := path }

/-- `internal/parser/spring.go extractFromValue`: parse a single string
value as a JDBC URL, an http(s) URL, or a bare host:port.  Note: unlike
the Kubernetes-flavored recognizer, the bare host:port arm has no
digest-string (`sha`) or port-range guard. -/
def extractFromValue (val sourceFile : String) : Option NetworkDependency :=
  match parseJDBC val sourceFile with
  | some d => some d
  | none =>
    let tryHostPort : Option NetworkDependency :=
      match hostPortP5Search val.data with
      | some (h, p) =>
        some { Source := "", Target := ⟨h⟩, Port := (digitsToNat p : Int), Protocol := "TCP",
               Description := "network service", Confidence := .medium,
               SourceFile := sourceFile }
      | none => none
    if strLeads "http://" val || strLeads "https://" val then
      match urlParseModel val.data with
      | some u =>
        if u.Host ≠ "" then
          let port : Int :=
            if u.PortDigits ≠ "" then (digitsToNat u.PortDigits.data : Int)
            else if u.Scheme = "https" then 443 else 80
          some { Source := "", Target := u.HostName, Port := port, Protocol := "TCP",
                 Description := "HTTP service", Confidence := .high,
                 SourceFile := sourceFile }
        else tryHostPort
      | none => tryHostPort
    else tryHostPort

/-! ### Spring extractor (`internal/parser/spring.go`) -/

/-- Go `strings.Split` at a separator character (empty parts kept). -/
def splitOnChar (sep : Char) (l : List Char) : List (List Char) :=
  match l with
  | [] => [[]]
  | c :: t =>
    match splitOnChar sep t with
    | [] => if c = sep then [[], []] else [[c]]
    | h :: r => if c = sep then [] :: h :: r else (c :: h) :: r

/-- `parseKafkaBrokers`: comma-separated list; each trimmed item that
matches `hostPortPattern` contributes a (host, port). -/
def parseKafkaBrokers (s : String) : List (String × Int) :=
  (splitOnChar ',' s.data).filterMap fun part =>
    match hostPortP5Search (trimSpace part) with
    | some (h, p) => some ((⟨h⟩ : String), (digitsToNat p : Int))
    | none => none

/-- The `spring.redis` / `spring.data.redis` sub-struct of the decoded
`application.yml` schema (`springConfig`); a missing key decodes to the
zero value (`""` / `0`). -/
structure SpringRedisCfg where
  Host : String := ""
  Port : Int := 0
deriving DecidableEq, Repr

/-- The decoded subset of `application.yml` the extractor reads
(`springConfig`); field names flattened from the nested YAML paths. -/
structure SpringConfig where
  datasourceURL : String := ""
  redis : SpringRedisCfg := {}
  dataRedis : SpringRedisCfg := {}
  kafkaBootstrapServers : String := ""
  rabbitHost : String := ""
  rabbitPort : Int := 0
  serverPort : Int := 0
deriving DecidableEq, Repr

/-- `extractSpringDeps`: dependencies of a single decoded YAML document,
in the emission order of the Go code. -/
def extractSpringDeps (cfg : SpringConfig) (path : String) : List NetworkDependency :=
  (if cfg.datasourceURL ≠ "" then (parseJDBC cfg.datasourceURL path).toList else [])
  ++ (if cfg.redis.Host ≠ "" then
        [{ Source := "", Target := cfg.redis.Host,
           Port := if cfg.redis.Port = 0 then 6379 else cfg.redis.Port,
           Protocol := "TCP", Description := "Redis", Confidence := .high,
           SourceFile := path }] else [])
  ++ (if cfg.dataRedis.Host ≠ "" then
        [{ Source := "", Target := cfg.dataRedis.Host,
           Port := if cfg.dataRedis.Port = 0 then 6379 else cfg.dataRedis.Port,
           Protocol := "TCP", Description := "Redis", Confidence := .high,
           SourceFile := path }] else [])
  ++ (if cfg.kafkaBootstrapServers ≠ "" then
        (parseKafkaBrokers cfg.kafkaBootstrapServers).map fun b =>
          { Source := "", Target := b.1, Port := b.2, Protocol := "TCP",
            Description := "Kafka", Confidence := .high, SourceFile := path }
      else [])
  ++ (if cfg.rabbitHost ≠ "" then
        [{ Source := "", Target := cfg.rabbitHost,
           Port := if cfg.rabbitPort = 0 then 5672 else cfg.rabbitPort,
           Protocol := "TCP", Description := "RabbitMQ", Confidence := .high,
           SourceFile := path }] else [])
  ++ (if cfg.serverPort ≠ 0 then
        [{ Source := "", Target := "self", Port := cfg.serverPort, Protocol := "TCP",
           Description := "server listening port", Confidence := .high,
           SourceFile := path }] else [])

/-- The `(Target, Port)` merge key of `mergeUnique` (looser than the
canonical key: no source/protocol). -/
def mergeKey (d : NetworkDependency) : String :=
  d.Target ++ ":" ++ toString d.Port

/-- `mergeUnique`: append the facts of `extra` whose `(Target, Port)` key
is not yet present. -/
def mergeUnique (base extra : List NetworkDependency) : List NetworkDependency :=
  extra.foldl
    (fun b d => if b.any (fun x => mergeKey x = mergeKey d) then b else b ++ [d]) base

/-- `isHandledSpringKey`: property keys already extracted explicitly. -/
def isHandledSpringKey (key : String) : Bool :=
  key = "spring.datasource.url" || key = "spring.redis.host" || key = "spring.redis.port" ||
    key = "spring.kafka.bootstrap-servers" || key = "spring.rabbitmq.host" ||
    key = "spring.rabbitmq.port" || key = "server.port"

/-- Lookup in the parsed properties map (modelled as an association list
with unique keys; the Go map's iteration order for the fallback scan is
not deterministic — the list order stands in for one such order, and no
checked property depends on it). -/
def propsLookup (props : List (String × String)) (key : String) : Option String :=
  (props.find? (fun kv => kv.1 = key)).map (fun kv => kv.2)

/-- The dependency-extraction phase of `parseSpringProperties`, after the
line-oriented `key=value` parsing has produced the properties map.  Note:
only the Spring Boot 2.x Redis keys (`spring.redis.*`) are looked up — the
3.x `spring.data.redis.*` keys are not in the handled set and fall through
to the generic value recognizer. -/
def springPropsDeps (props : List (String × String)) (path : String) :
    List NetworkDependency :=
  let base :=
    (match propsLookup props "spring.datasource.url" with
     | some v => (parseJDBC v path).toList
     | none => [])
    ++ (match propsLookup props "spring.redis.host" with
        | some host =>
          let port : Int :=
            match propsLookup props "spring.redis.port" with
            | some p => ((atoi p).getD 6379)
            | none => 6379
          [{ Source := "", Target := host, Port := port, Protocol := "TCP",
             Description := "Redis", Confidence := .high, SourceFile := path }]
        | none => [])
    ++ (match propsLookup props "spring.kafka.bootstrap-servers" with
        | some v =>
          (parseKafkaBrokers v).map fun b =>
            { Source := "", Target := b.1, Port := b.2, Protocol := "TCP",
              Description := "Kafka", Confidence := .high, SourceFile := path }
        | none => [])
    ++ (match propsLookup props "spring.rabbitmq.host" with
        | some host =>
          let port : Int :=
            match propsLookup props "spring.rabbitmq.port" with
            | some p => ((atoi p).getD 5672)
            | none => 5672
          [{ Source := "", Target := host, Port := port, Protocol := "TCP",
             Description := "RabbitMQ", Confidence := .high, SourceFile := path }]
        | none => [])
    ++ (match propsLookup props "server.port" with
        | some v =>
          match atoi v with
          | some port =>
            [{ Source := "", Target := "self", Port := port, Protocol := "TCP",
               Description := "server listening port", Confidence := .high,
               SourceFile := path }]
          | none => []
        | none => [])
  props.foldl
    (fun acc kv =>
      if isHandledSpringKey kv.1 then acc
      else
        match extractFromValue kv.2 path with
        | some d => mergeUnique acc [d]
        | none => acc)
    base

/-! ### Policy renderers (`internal/renderer/netpol.go`) -/

/-- ASCII upper-casing of one character (Go `strings.ToUpper`; protocol
strings here are ASCII). -/
def upperChar (c : Char) : Char :=
  if 'a' ≤ c ∧ c ≤ 'z' then Char.ofNat (c.toNat - 32) else c

/-- ASCII upper-casing of a whole string. -/
def toUpperStr (s : String) : String := ⟨s.data.map upperChar⟩

/-- The protocol rendered for a rule: upper-cased, defaulting to TCP. -/
def protoOf (p : String) : String :=
  let u := toUpperStr p
  if u = "" then "TCP" else u

/-- The character mapping inside `sanitizeName`: keep `[a-z0-9-]`,
everything else becomes `-`. -/
def sanChar (c : Char) : Char :=
  if ('a' ≤ c ∧ c ≤ 'z') ∨ ('0' ≤ c ∧ c ≤ '9') ∨ c = '-' then c else '-'

/-- `sanitizeName` on rune lists: lower-case, map to `[a-z0-9-]`, trim
`-` at both ends, truncate to 63, re-trim trailing `-`, default
`"unknown"`. -/
def sanitizeList (l : List Char) : List Char :=
  let l1 := (l.map lowerChar).map sanChar
  let l2 := ((l1.dropWhile (fun c => c = '-')).reverse.dropWhile (fun c => c = '-')).reverse
  let l3 := l2.take 63
  let l4 := (l3.reverse.dropWhile (fun c => c = '-')).reverse
  if l4 = [] then "unknown".data else l4

/-- `sanitizeName`: convert a string to a valid K8s resource name. -/
def sanitizeName (s : String) : String := ⟨sanitizeList s.data⟩

/-- The order-preserving deduplication pass inside `dedupeStrings`. -/
def dedupeFirstAux : List String → List String → List String
  | _, [] => []
  | seen, s :: rest =>
    if seen.contains s then dedupeFirstAux seen rest
    else s :: dedupeFirstAux (s :: seen) rest

/-- `dedupeStrings`: sorted, deduplicated copy (nil in, nil out). -/
def dedupeStrings (ss : List String) : List String :=
  if ss = [] then []
  else (dedupeFirstAux [] ss).insertionSort strLE

/-- One dotted-quad field of an IPv4 literal as `net.ParseIP` accepts it:
1-3 digits, value ≤ 255, no leading zero. -/
def ipv4Part (l : List Char) : Bool :=
  l ≠ [] && l.all isDig && l.length ≤ 3 && decide (digitsToNat l ≤ 255) &&
    (l.head? ≠ some '0' || l = ['0'])

/-- Model of `net.ParseIP(s) != nil` for the renderer's target
classification, covering dotted-quad IPv4 (IPv6 literals do not occur as
extracted targets and are modelled as non-IP; they would only switch the
selector shape, which no checked property depends on). -/
def parseIPOk (s : String) : Bool :=
  match splitOnChar '.' s.data with
  | [a, b, c, d] => ipv4Part a && ipv4Part b && ipv4Part c && ipv4Part d
  | _ => false

/-- `strings.SplitN(target, ".", 3)` reduced to what the renderer uses:
the first part (service name) and the second part (namespace, `""` when
the separator is absent or the second part is empty). -/
def splitN3 (sep : Char) (l : List Char) : List Char × List Char :=
  let p0 := l.takeWhile (fun c => c ≠ sep)
  match l.dropWhile (fun c => c ≠ sep) with
  | _ :: r2 => (p0, r2.takeWhile (fun c => c ≠ sep))
  | [] => (p0, [])

/-- `renderEgressTo`: the `to:` destination block for one target. -/
def renderEgressTo (target : String) : String :=
  if parseIPOk target then
    "    - to:\n        - ipBlock:\n            cidr: " ++ target ++ "/32\n"
  else if strOccurs "." target then
    let parts := splitN3 '.' target.data
    let svcName : String := ⟨parts.1⟩
    let nsPart : String := ⟨parts.2⟩
    "    - to:\n        - podSelector:\n            matchLabels:\n              app: " ++
      svcName ++ "\n" ++
      (if nsPart ≠ "" then
        "          namespaceSelector:\n            matchLabels:\n              kubernetes.io/metadata.name: " ++
          nsPart ++ "\n"
       else "")
  else
    "    - to:\n        - podSelector:\n            matchLabels:\n              app: " ++
      target ++ "\n"

/-- `renderIngressFrom`: the `from:` source block, mirroring
`renderEgressTo` with `from:` instead of `to:`. -/
def renderIngressFrom (source : String) : String :=
  if parseIPOk source then
    "    - from:\n        - ipBlock:\n            cidr: " ++ source ++ "/32\n"
  else if strOccurs "." source then
    let parts := splitN3 '.' source.data
    let svcName : String := ⟨parts.1⟩
    let nsPart : String := ⟨parts.2⟩
    "    - from:\n        - podSelector:\n            matchLabels:\n              app: " ++
      svcName ++ "\n" ++
      (if nsPart ≠ "" then
        "          namespaceSelector:\n            matchLabels:\n              kubernetes.io/metadata.name: " ++
          nsPart ++ "\n"
       else "")
  else
    "    - from:\n        - podSelector:\n            matchLabels:\n              app: " ++
      source ++ "\n"

/-- The DNS egress rule (port 53 UDP/TCP to kube-system), shared by both
rendering modes. -/
def npDNSBlock : String :=
  "    - to:\n        - namespaceSelector:\n            matchLabels:\n              kubernetes.io/metadata.name: kube-system\n      ports:\n        - port: 53\n          protocol: UDP\n        - port: 53\n          protocol: TCP\n"

/-- The `ports:` lines rendered after a destination/source block. -/
def portLines (port : Int) (protocol : String) : String :=
  "      ports:\n        - port: " ++ toString port ++ "\n          protocol: " ++
    protoOf protocol ++ "\n"

/-- One egress rule of the single-service policy (the `egressRule` struct). -/
structure EgressRule where
  target : String
  port : Int
  protocol : String
deriving DecidableEq, Repr

/-- The rule-collection loop of `NetworkPolicy`: facts with `Port ≤ 0` go
to the skipped-target list; the rest are deduplicated by the
`target:port:protocol` key, first occurrence kept. -/
def npCollectAux : List NetworkDependency → List String → List EgressRule × List String
  | [], _ => ([], [])
  | dep :: rest, seen =>
    if dep.Port ≤ 0 then
      let rs := npCollectAux rest seen
      (rs.1, dep.Target :: rs.2)
    else
      let key := dep.Target ++ ":" ++ toString dep.Port ++ ":" ++ dep.Protocol
      if seen.contains key then npCollectAux rest seen
      else
        let rs := npCollectAux rest (key :: seen)
        (⟨dep.Target, dep.Port, dep.Protocol⟩ :: rs.1, rs.2)

/-- Both fixed policy headers of the single-service rendering, through the
`egress:` line of the second policy. -/
def npHeader (svcName : String) : String :=
  "# Review: verify podSelector labels match your deployment\n" ++
  "apiVersion: networking.k8s.io/v1\nkind: NetworkPolicy\nmetadata:\n  name: " ++
  svcName ++ "-default-deny\n  labels:\n    generated-by: segspec\nspec:\n  podSelector:\n    matchLabels:\n      app: " ++
  svcName ++ "\n  policyTypes:\n    - Ingress\n    - Egress\n# Default deny policy — blocks all traffic not explicitly allowed above\n" ++
  "---\napiVersion: networking.k8s.io/v1\nkind: NetworkPolicy\nmetadata:\n  name: " ++
  svcName ++ "-egress\n  labels:\n    generated-by: segspec\nspec:\n  podSelector:\n    matchLabels:\n      app: " ++
  svcName ++ "\n  policyTypes:\n    - Egress\n  egress:\n"

/-- One rendered egress rule of the single-service policy. -/
def renderNpRule (rule : EgressRule) : String :=
  renderEgressTo rule.target ++ portLines rule.port rule.protocol

/-- `NetworkPolicy`: default-deny plus egress-allow policies for one
service. -/
def NetworkPolicy (ds : DependencySet) : String :=
  let deps := ds.Dependencies
  if deps = [] then ""
  else
    let collected := npCollectAux deps []
    let skipped := dedupeStrings collected.2
    let svcName := sanitizeName ds.ServiceName
    npHeader svcName ++ String.join (collected.1.map renderNpRule) ++ npDNSBlock ++
      (if skipped ≠ [] then
        "# Skipped (no port): " ++ String.intercalate ", " skipped ++ "\n"
       else "")

/-- The sorted list of distinct service names appearing as a source or a
target (the `allServices` map plus `sort.Strings`). -/
def psServiceList (deps : List NetworkDependency) : List String :=
  (dedupeFirstAux []
      (deps.foldr
        (fun d acc =>
          (if d.Source ≠ "" then [d.Source] else []) ++
            (if d.Target ≠ "" then [d.Target] else []) ++ acc)
        [])).insertionSort strLE

/-- One ingress entry of a per-service policy (facts with an empty source
are skipped; port lines only for positive ports). -/
def psIngressItem (dep : NetworkDependency) : String :=
  if dep.Source = "" then ""
  else
    renderIngressFrom dep.Source ++
      (if 0 < dep.Port then portLines dep.Port dep.Protocol else "")

/-- One egress entry of a per-service policy (facts with `Port ≤ 0` are
dropped silently). -/
def psEgressItem (dep : NetworkDependency) : String :=
  if dep.Port ≤ 0 then ""
  else renderEgressTo dep.Target ++ portLines dep.Port dep.Protocol

/-- The fixed header of one per-service policy. -/
def psHeader (svcName : String) : String :=
  "apiVersion: networking.k8s.io/v1\nkind: NetworkPolicy\nmetadata:\n  name: " ++
  svcName ++ "-netpol\n  labels:\n    generated-by: segspec\nspec:\n  podSelector:\n    matchLabels:\n      app: " ++
  svcName ++ "\n  policyTypes:\n    - Ingress\n    - Egress\n"

/-- The ingress section of one per-service policy. -/
def psIngressSection (ds : DependencySet) (svc : String) : String :=
  let ingress := ds.IngressFor svc
  if ingress ≠ [] then "  ingress:\n" ++ String.join (ingress.map psIngressItem) else ""

/-- The loop body of `PerServiceNetworkPolicy` for one service: header,
ingress section, then — when the service has any egress fact at all — the
egress section with the DNS rule appended. -/
def renderServicePolicy (ds : DependencySet) (svc : String) : String :=
  let svcName := sanitizeName svc
  let egress := ds.EgressFor svc
  psHeader svcName ++ psIngressSection ds svc ++
    (if egress ≠ [] then
      "  egress:\n" ++ String.join (egress.map psEgressItem) ++ npDNSBlock
     else "")

/-- `PerServiceNetworkPolicy`: one ingress+egress policy per service. -/
def PerServiceNetworkPolicy (ds : DependencySet) : String :=
  let deps := ds.Dependencies
  if deps = [] then ""
  else String.intercalate "---\n" ((psServiceList deps).map (renderServicePolicy ds))

/-! ### Heap model of the slice-returning queries

`Dependencies`, `IngressFor` and `EgressFor` return Go slices.  To state
that those slices are fresh (mutating them cannot affect the set), slices
are modelled as locations into a heap of backing arrays: `Dependencies`
performs `make` + `copy` + in-place sort on the copy, and the two filters
build their result with `append` starting from a nil slice — all three
allocate a fresh backing array and return its location. -/

/-- A heap of slice backing arrays; a location is an index into it. -/
abbrev Heap := List (List NetworkDependency)

/-- Read the array at a location (out-of-range reads give the nil slice). -/
def readH (h : Heap) (loc : Nat) : List NetworkDependency :=
  List.getD h loc []

/-- Overwrite the array at a location (the effect of mutating a slice's
elements or appending within/over its backing array). -/
def writeH (h : Heap) (loc : Nat) (v : List NetworkDependency) : Heap :=
  List.set h loc v

/-- Allocate a fresh backing array holding `v`; returns the new heap and
the fresh location. -/
def allocH (h : Heap) (v : List NetworkDependency) : Heap × Nat :=
  (h ++ [v], List.length h)

/-- A `DependencySet` whose `deps` slice lives in the heap. -/
structure DSRef where
  ServiceName : String
  depsLoc : Nat
  seen : List String

/-- The location of a live set points into the heap. -/
def DSRef.valid (h : Heap) (ds : DSRef) : Prop := ds.depsLoc < List.length h

/-- Heap-level `Dependencies()`: `make` + `copy` allocates a fresh array,
which is then sorted in place. -/
def DependenciesH (h : Heap) (ds : DSRef) : Heap × Nat :=
  allocH h (sortByKey (readH h ds.depsLoc))

/-- Heap-level `IngressFor()`: `append` onto a nil slice allocates a
fresh array, sorted in place. -/
def IngressForH (h : Heap) (ds : DSRef) (service : String) : Heap × Nat :=
  allocH h (sortByKey ((readH h ds.depsLoc).filter (fun dep => dep.Target = service)))

/-- Heap-level `EgressFor()`. -/
def EgressForH (h : Heap) (ds : DSRef) (service : String) : Heap × Nat :=
  allocH h (sortByKey ((readH h ds.depsLoc).filter (fun dep => dep.Source = service)))

/-- Heap-level `Len()`. -/
def LenH (h : Heap) (ds : DSRef) : Nat := List.length (readH h ds.depsLoc)

/-! ## Claims -/

/-- C1: `DependencySet.Add` is idempotent and first-write-wins — for every
set and every pair of facts agreeing on (source, target, port, protocol),
adding the second after the first leaves the whole set (hence `Len` and
the stored facts) unchanged: the first occurrence is kept and the second
discarded, whatever its description, confidence, or source file. -/
theorem add_first_write_wins (ds : DependencySet) (d₁ d₂ : NetworkDependency)
    (hs : d₁.Source = d₂.Source) (ht : d₁.Target = d₂.Target)
    (hp : d₁.Port = d₂.Port) (hpr : d₁.Protocol = d₂.Protocol) :
    (ds.Add d₁).Add d₂ = ds.Add d₁ ∧
      ((ds.Add d₁).Add d₂).Len = (ds.Add d₁).Len ∧
      ((ds.Add d₁).Add d₂).deps = (ds.Add d₁).deps := by
  have hkey : d₂.Key = d₁.Key := by
    unfold NetworkDependency.Key
    rw [hs, ht, hp, hpr]
  have hmain : (ds.Add d₁).Add d₂ = ds.Add d₁ := by
    simp only [DependencySet.Add, hkey]
    by_cases h : d₁.Key ∈ ds.seen
    · simp [h]
    · simp [h]
  exact ⟨hmain, by rw [hmain], by rw [hmain]⟩

/-- Witness for C1 at a concrete set: the second fact differs in
description, confidence and source file but shares the key fields. -/
theorem add_first_write_wins_witness :
    ((NewDependencySet "web").Add
        { Source := "web", Target := "db", Port := 5432, Protocol := "TCP",
          Description := "PostgreSQL", Confidence := .high, SourceFile := "a.yml" }).Add
        { Source := "web", Target := "db", Port := 5432, Protocol := "TCP",
          Description := "database", Confidence := .low, SourceFile := "b.env" } =
      (NewDependencySet "web").Add
        { Source := "web", Target := "db", Port := 5432, Protocol := "TCP",
          Description := "PostgreSQL", Confidence := .high, SourceFile := "a.yml" } :=
  (add_first_write_wins (NewDependencySet "web")
    { Source := "web", Target := "db", Port := 5432, Protocol := "TCP",
      Description := "PostgreSQL", Confidence := .high, SourceFile := "a.yml" }
    { Source := "web", Target := "db", Port := 5432, Protocol := "TCP",
      Description := "database", Confidence := .low, SourceFile := "b.env" }
    rfl rfl rfl rfl).1

/-- C2: for every `DependencySet`, the listing returned by
`Dependencies()` is sorted ascending by the canonical key string
`source->target:port/protocol` (lexicographically — `keyLE`), and is a
permutation of the stored facts, so emitted listings are deterministic
regardless of insertion order. -/
theorem dependencies_sorted_by_key (ds : DependencySet) :
    ds.Dependencies.Sorted keyLE ∧ ds.Dependencies.Perm ds.deps :=
  ⟨List.sorted_insertionSort keyLE ds.deps, List.perm_insertionSort keyLE ds.deps⟩

/-- C3: JDBC recognition.  Whenever `jdbcPattern` matches a string (driver
`drv`, host, optional port digits `p`): a skip-listed driver (`h2`,
`derby`) yields no fact; an explicit port yields a High-confidence fact
with that port; an absent port yields the driver's default port at Medium
confidence when the driver is known and no fact otherwise.  The default
table maps postgresql/postgres to 5432, mysql/mariadb to 3306, oracle to
1521, sqlserver/mssql to 1433; `jdbc:h2:mem:testdb` and
`jdbc:derby:memory:testdb;create=true` yield nothing. -/
theorem jdbc_port_and_confidence :
    (∀ (raw path : String) (drv host p : List Char),
      jdbcMatch raw.data = some (drv, host, p) →
      (jdbcSkipDrivers (toLowerStr ⟨drv⟩) = true → parseJDBC raw path = none) ∧
      (jdbcSkipDrivers (toLowerStr ⟨drv⟩) = false → p ≠ [] →
        ∃ dep, parseJDBC raw path = some dep ∧ dep.Confidence = .high ∧
          dep.Port = (digitsToNat p : Int) ∧ dep.Target = ⟨host⟩) ∧
      (jdbcSkipDrivers (toLowerStr ⟨drv⟩) = false → p = [] →
        (∀ n, jdbcDefaultPorts (toLowerStr ⟨drv⟩) = some n →
          ∃ dep, parseJDBC raw path = some dep ∧ dep.Confidence = .medium ∧
            dep.Port = n ∧ dep.Target = ⟨host⟩) ∧
        (jdbcDefaultPorts (toLowerStr ⟨drv⟩) = none → parseJDBC raw path = none))) ∧
    jdbcDefaultPorts "postgresql" = some 5432 ∧ jdbcDefaultPorts "postgres" = some 5432 ∧
    jdbcDefaultPorts "mysql" = some 3306 ∧ jdbcDefaultPorts "mariadb" = some 3306 ∧
    jdbcDefaultPorts "oracle" = some 1521 ∧ jdbcDefaultPorts "sqlserver" = some 1433 ∧
    jdbcDefaultPorts "mssql" = some 1433 ∧
    jdbcSkipDrivers "h2" = true ∧ jdbcSkipDrivers "derby" = true ∧
    (∀ path, parseJDBC "jdbc:h2:mem:testdb" path = none) ∧
    (∀ path, parseJDBC "jdbc:derby:memory:testdb;create=true" path = none) ∧
    (∀ path, parseJDBC "jdbc:h2://hostname/db" path = none) ∧
    (∀ path, parseJDBC "jdbc:derby://hostname/db" path = none) := by
  refine ⟨?_, by decide, by decide, by decide, by decide, by decide, by decide, by decide,
    by decide, by decide,
    fun _ => by simp [parseJDBC, show jdbcMatch "jdbc:h2:mem:testdb".data = none from by decide],
    fun _ => by
      simp [parseJDBC,
        show jdbcMatch "jdbc:derby:memory:testdb;create=true".data = none from by decide],
    fun _ => by
      simp [parseJDBC,
        show jdbcMatch "jdbc:h2://hostname/db".data =
          some ("h2".data, "hostname".data, []) from by decide,
        show toLowerStr "h2" = "h2" from by decide, jdbcSkipDrivers],
    fun _ => by
      simp [parseJDBC,
        show jdbcMatch "jdbc:derby://hostname/db".data =
          some ("derby".data, "hostname".data, []) from by decide,
        show toLowerStr "derby" = "derby" from by decide, jdbcSkipDrivers]⟩
  intro raw path drv host p hm
  refine ⟨?_, ?_, ?_⟩
  · intro hskip
    simp [parseJDBC, hm, hskip]
  · intro hskip hp
    refine
      ⟨{ Source := "", Target := ⟨host⟩, Port := (digitsToNat p : Int), Protocol := "TCP",
         Description := (jdbcDescriptions (toLowerStr ⟨drv⟩)).getD (toLowerStr ⟨drv⟩),
         Confidence := .high, SourceFile := path }, ?_, rfl, rfl, rfl⟩
    simp [parseJDBC, hm, hskip, hp]
  · intro hskip hp
    subst hp
    constructor
    · intro n hdef
      refine
        ⟨{ Source := "", Target := ⟨host⟩, Port := n, Protocol := "TCP",
           Description := (jdbcDescriptions (toLowerStr ⟨drv⟩)).getD (toLowerStr ⟨drv⟩),
           Confidence := .medium, SourceFile := path }, ?_, rfl, rfl, rfl⟩
      simp [parseJDBC, hm, hskip, hdef]
    · intro hdef
      simp [parseJDBC, hm, hskip, hdef]

/-- Witness for C3 at concrete JDBC URLs: explicit port gives High
confidence, absent port gives the 5432 default at Medium. -/
theorem jdbc_port_and_confidence_witness :
    (∃ dep, parseJDBC "jdbc:postgresql://db-host:5432/mydb" "app.properties" = some dep ∧
      dep.Confidence = .high ∧ dep.Port = (digitsToNat "5432".data : Int) ∧
      dep.Target = "db-host") ∧
    (∃ dep, parseJDBC "jdbc:postgresql://db-host/mydb" "app.properties" = some dep ∧
      dep.Confidence = .medium ∧ dep.Port = 5432 ∧ dep.Target = "db-host") :=
  ⟨((jdbc_port_and_confidence.1 "jdbc:postgresql://db-host:5432/mydb" "app.properties"
      "postgresql".data "db-host".data "5432".data (by decide)).2.1 (by decide)
      (by decide)),
   (((jdbc_port_and_confidence.1 "jdbc:postgresql://db-host/mydb" "app.properties"
      "postgresql".data "db-host".data [] (by decide)).2.2 (by decide) rfl).1 5432
      (by decide))⟩

/-- Characters admissible in a sanitized name. -/
def validSanChar (c : Char) : Bool :=
  (decide ('a' ≤ c) && decide (c ≤ 'z')) || (decide ('0' ≤ c) && decide (c ≤ '9')) || c = '-'

theorem sanChar_valid (c : Char) : validSanChar (sanChar c) = true := by
  unfold sanChar validSanChar
  split
  · rename_i h
    rcases h with h | h | h
    · simp [h.1, h.2]
    · simp [h.1, h.2]
    · simp [h]
  · simp

/-- Dropping a `dropWhile` never exposes a satisfying head. -/
theorem head?_dropWhile_not {c : Char} {l : List Char} {p : Char → Bool}
    (h : (l.dropWhile p).head? = some c) : p c = false := by
  induction l with
  | nil => simp [List.dropWhile] at h
  | cons x xs ih =>
    rw [List.dropWhile_cons] at h
    by_cases hx : p x
    · simp [hx] at h
      exact ih h
    · simp [hx] at h
      subst h
      simp at hx
      simp [hx]

/-- A nonempty prefix has the same head. -/
theorem head?_of_isPrefix {l₁ l₂ : List Char} (h : l₁ <+: l₂) (hne : l₁ ≠ []) :
    l₁.head? = l₂.head? := by
  obtain ⟨t, rfl⟩ := h
  cases l₁ with
  | nil => exact absurd rfl hne
  | cons x xs => simp

/-- Right-trimming yields a prefix of the original. -/
theorem trimRight_isPrefix (l : List Char) (p : Char → Bool) :
    ((l.reverse.dropWhile p).reverse) <+: l := by
  have h := List.dropWhile_suffix (l := l.reverse) p
  have h2 := List.reverse_prefix.mpr h
  simpa using h2

/-- C9: `sanitizeName` always yields a nonempty name of at most 63
characters drawn from `[a-z0-9-]` with no leading or trailing hyphen, and
on the spec's examples: `"My App_v2.0"` maps to `"my-app-v2-0"`, 62 `a`s
followed by `-b` map to 62 `a`s (truncate-then-re-trim), and the empty
string maps to `"unknown"`. -/
theorem sanitize_name_spec :
    (∀ s : String,
      (sanitizeName s).length ≤ 63 ∧
      sanitizeName s ≠ "" ∧
      (sanitizeName s).data.all validSanChar = true ∧
      (sanitizeName s).data.head? ≠ some '-' ∧
      (sanitizeName s).data.getLast? ≠ some '-') ∧
    sanitizeName "My App_v2.0" = "my-app-v2-0" ∧
    sanitizeName ⟨List.replicate 62 'a' ++ ['-', 'b']⟩ = ⟨List.replicate 62 'a'⟩ ∧
    sanitizeName "" = "unknown" := by
  refine ⟨?_, by decide, by decide, by decide⟩
  intro s
  unfold sanitizeName sanitizeList
  set l1 := (s.data.map lowerChar).map sanChar with hl1
  set l2 := ((l1.dropWhile (fun c => c = '-')).reverse.dropWhile (fun c => c = '-')).reverse
    with hl2
  set l3 := l2.take 63 with hl3
  set l4 := (l3.reverse.dropWhile (fun c => c = '-')).reverse with hl4
  by_cases hnil : l4 = []
  · rw [if_pos hnil]
    refine ⟨by decide, by decide, by decide, by decide, by decide⟩
  · rw [if_neg hnil]
    have hpre43 : l4 <+: l3 := trimRight_isPrefix l3 _
    have hpre32 : l3 <+: l2 := List.take_prefix 63 l2
    have hpre2d : l2 <+: l1.dropWhile (fun c => c = '-') :=
      trimRight_isPrefix (l1.dropWhile (fun c => c = '-')) _
    have hsub : List.Sublist l4 l1 := by
      refine List.Sublist.trans hpre43.sublist ?_
      refine List.Sublist.trans hpre32.sublist ?_
      exact List.Sublist.trans hpre2d.sublist (List.dropWhile_sublist _)
    refine ⟨?_, ?_, ?_, ?_, ?_⟩
    · show l4.length ≤ 63
      calc l4.length ≤ l3.length := hpre43.sublist.length_le
        _ ≤ 63 := by
          rw [hl3]
          simp
    · show (⟨l4⟩ : String) ≠ ""
      intro hcon
      exact hnil (congrArg String.data hcon)
    · show l4.all validSanChar = true
      rw [List.all_eq_true]
      intro c hc
      have hc1 : c ∈ l1 := hsub.subset hc
      rw [hl1] at hc1
      obtain ⟨d, _, rfl⟩ := List.mem_map.mp hc1
      exact sanChar_valid d
    · show l4.head? ≠ some '-'
      intro hcon
      have h2ne : l2 ≠ [] := by
        intro h2
        apply hnil
        rw [hl4, hl3, h2]
        decide
      have h3ne : l3 ≠ [] := by
        intro h3
        apply hnil
        rw [hl4, h3]
        decide
      have e1 : l4.head? = l3.head? := head?_of_isPrefix hpre43 hnil
      have e2 : l3.head? = l2.head? := head?_of_isPrefix hpre32 h3ne
      have e3 : l2.head? = (l1.dropWhile (fun c => c = '-')).head? :=
        head?_of_isPrefix hpre2d h2ne
      have : (l1.dropWhile (fun c => c = '-')).head? = some '-' := by
        rw [← e3, ← e2, ← e1]
        exact hcon
      have := head?_dropWhile_not this
      simp at this
    · show l4.getLast? ≠ some '-'
      intro hcon
      have hrev : l4.reverse = l3.reverse.dropWhile (fun c => c = '-') := by
        rw [hl4, List.reverse_reverse]
      have : (l3.reverse.dropWhile (fun c => c = '-')).head? = some '-' := by
        rw [← hrev, List.head?_reverse]
        exact hcon
      have := head?_dropWhile_not this
      simp at this

/-- Writing through a freshly allocated location does not change what any
live location reads. -/
theorem readH_alloc_write {h : Heap} {ds : DSRef} (hv : ds.valid h)
    (arr v : List NetworkDependency) :
    (allocH h arr).2 ≠ ds.depsLoc ∧
      readH (writeH (allocH h arr).1 (allocH h arr).2 v) ds.depsLoc = readH h ds.depsLoc := by
  have hne : List.length h ≠ ds.depsLoc := (Nat.ne_of_lt hv).symm
  refine ⟨hne, ?_⟩
  unfold allocH writeH readH
  rw [List.getD_eq_getElem?_getD, List.getElem?_set_ne hne, List.getElem?_append,
    if_pos (show ds.depsLoc < List.length h from hv), ← List.getD_eq_getElem?_getD]

/-- C10: `Dependencies()`, `IngressFor()` and `EgressFor()` each return a
freshly allocated slice: its location differs from the set's backing
array, and overwriting the returned slice with arbitrary contents leaves
the set's stored facts, `Len()`, and the results of subsequent queries
unchanged. -/
theorem queries_return_fresh_slices (h : Heap) (ds : DSRef) (service : String)
    (hv : ds.valid h) :
    ((DependenciesH h ds).2 ≠ ds.depsLoc ∧
      ∀ v, readH (writeH (DependenciesH h ds).1 (DependenciesH h ds).2 v) ds.depsLoc =
        readH h ds.depsLoc) ∧
    ((IngressForH h ds service).2 ≠ ds.depsLoc ∧
      ∀ v, readH (writeH (IngressForH h ds service).1 (IngressForH h ds service).2 v)
        ds.depsLoc = readH h ds.depsLoc) ∧
    ((EgressForH h ds service).2 ≠ ds.depsLoc ∧
      ∀ v, readH (writeH (EgressForH h ds service).1 (EgressForH h ds service).2 v)
        ds.depsLoc = readH h ds.depsLoc) ∧
    (∀ v, LenH (writeH (DependenciesH h ds).1 (DependenciesH h ds).2 v) ds = LenH h ds) ∧
    (∀ v, sortByKey (readH (writeH (DependenciesH h ds).1 (DependenciesH h ds).2 v)
        ds.depsLoc) = sortByKey (readH h ds.depsLoc)) := by
  refine ⟨⟨(readH_alloc_write hv _ []).1, fun v => (readH_alloc_write hv _ v).2⟩,
    ⟨(readH_alloc_write hv _ []).1, fun v => (readH_alloc_write hv _ v).2⟩,
    ⟨(readH_alloc_write hv _ []).1, fun v => (readH_alloc_write hv _ v).2⟩,
    fun v => ?_, fun v => ?_⟩
  · exact congrArg List.length
      ((readH_alloc_write hv (sortByKey (readH h ds.depsLoc)) v).2)
  · exact congrArg sortByKey
      ((readH_alloc_write hv (sortByKey (readH h ds.depsLoc)) v).2)

/-- The heap and set reference used by the C10 witness. -/
def sampleHeap : Heap :=
  [[{ Source := "web", Target := "db", Port := 5432, Protocol := "TCP" }]]

/-- The set reference of the C10 witness points at slot 0 of `sampleHeap`. -/
def sampleRef : DSRef := ⟨"web", 0, []⟩

/-- Witness for C10 on a one-set heap. -/
theorem queries_return_fresh_slices_witness :
    (DependenciesH sampleHeap sampleRef).2 ≠ sampleRef.depsLoc ∧
    ∀ v, readH (writeH (DependenciesH sampleHeap sampleRef).1
        (DependenciesH sampleHeap sampleRef).2 v) sampleRef.depsLoc =
      readH sampleHeap sampleRef.depsLoc :=
  (queries_return_fresh_slices sampleHeap sampleRef "db" Nat.zero_lt_one).1

/-- Every rendered single-service egress rule has a positive port. -/
theorem npCollect_rules_pos :
    ∀ (deps : List NetworkDependency) (seen : List String) r,
      r ∈ (npCollectAux deps seen).1 → 0 < r.port := by
  intro deps
  induction deps with
  | nil => intro seen r hr; simp [npCollectAux] at hr
  | cons dep rest ih =>
    intro seen r hr
    by_cases hp : dep.Port ≤ 0
    · rw [npCollectAux, if_pos hp] at hr
      exact ih seen r hr
    · rw [npCollectAux, if_neg hp] at hr
      by_cases hsee : seen.contains (dep.Target ++ ":" ++ toString dep.Port ++ ":" ++
          dep.Protocol)
      · rw [if_pos hsee] at hr
        exact ih seen r hr
      · rw [if_neg hsee] at hr
        simp only [List.mem_cons] at hr
        rcases hr with hr | hr
        · subst hr
          exact lt_of_not_le hp
        · exact ih _ r hr

/-- Every fact with a non-positive port lands in the skipped-target list. -/
theorem npCollect_skipped :
    ∀ (deps : List NetworkDependency) (seen : List String) dep,
      dep ∈ deps → dep.Port ≤ 0 → dep.Target ∈ (npCollectAux deps seen).2 := by
  intro deps
  induction deps with
  | nil => intro seen dep h; simp at h
  | cons d rest ih =>
    intro seen dep hmem hport
    simp only [List.mem_cons] at hmem
    rcases hmem with rfl | hmem
    · rw [npCollectAux, if_pos hport]
      exact List.mem_cons_self _ _
    · by_cases hp : d.Port ≤ 0
      · rw [npCollectAux, if_pos hp]
        exact List.mem_cons_of_mem _ (ih seen dep hmem hport)
      · rw [npCollectAux, if_neg hp]
        by_cases hsee : seen.contains (d.Target ++ ":" ++ toString d.Port ++ ":" ++ d.Protocol)
        · rw [if_pos hsee]
          exact ih seen dep hmem hport
        · rw [if_neg hsee]
          exact ih _ dep hmem hport

/-- Order-preserving deduplication keeps every element not yet seen. -/
theorem mem_dedupeFirstAux :
    ∀ (l : List String) (seen : List String) (a : String),
      a ∈ l → a ∉ seen → a ∈ dedupeFirstAux seen l := by
  intro l
  induction l with
  | nil => intro seen a h; simp at h
  | cons s rest ih =>
    intro seen a hmem hnot
    simp only [List.mem_cons] at hmem
    unfold dedupeFirstAux
    by_cases hsee : seen.contains s
    · rw [if_pos hsee]
      rcases hmem with rfl | hmem
      · exact absurd (by simpa using hsee : a ∈ seen) hnot
      · exact ih seen a hmem hnot
    · rw [if_neg hsee]
      rcases hmem with rfl | hmem
      · exact List.mem_cons_self _ _
      · by_cases has : a = s
        · subst has
          exact List.mem_cons_self _ _
        · refine List.mem_cons_of_mem _ (ih (s :: seen) a hmem ?_)
          intro hcon
          rcases List.mem_cons.mp hcon with h | h
          · exact has h
          · exact hnot h

/-- Membership survives `dedupeStrings`. -/
theorem mem_dedupeStrings {a : String} {l : List String} (h : a ∈ l) :
    a ∈ dedupeStrings l := by
  unfold dedupeStrings
  rw [if_neg (List.ne_nil_of_mem h)]
  exact (List.perm_insertionSort strLE _).mem_iff.mpr
    (mem_dedupeFirstAux l [] a h (by simp))

theorem strFoldl_append (l : List String) :
    ∀ a b : String, l.foldl (· ++ ·) (a ++ b) = a ++ l.foldl (· ++ ·) b := by
  induction l with
  | nil => intro a b; rfl
  | cons c t ih =>
    intro a b
    simp only [List.foldl_cons]
    rw [String.append_assoc, ih]

theorem strJoin_cons (s : String) (l : List String) :
    String.join (s :: l) = s ++ String.join l := by
  show l.foldl (· ++ ·) ("" ++ s) = s ++ String.join l
  rw [show ("" ++ s) = (s ++ "") from by simp, strFoldl_append]
  rfl

/-- The per-service egress body renders exactly the positive-port facts. -/
theorem psEgress_join_filter (l : List NetworkDependency) :
    String.join (l.map psEgressItem) =
      String.join ((l.filter (fun d => decide (0 < d.Port))).map psEgressItem) := by
  induction l with
  | nil => rfl
  | cons d rest ih =>
    by_cases hp : 0 < d.Port
    · rw [List.map_cons, strJoin_cons, List.filter_cons, if_pos (by simpa using hp),
        List.map_cons, strJoin_cons, ih]
    · have hitem : psEgressItem d = "" := by
        unfold psEgressItem
        rw [if_pos (not_lt.mp hp)]
      rw [List.map_cons, strJoin_cons, hitem, List.filter_cons,
        if_neg (by simpa using hp)]
      simp only [ih]
      simp

/-- The concrete set used by the rendering test facts of C5: one fact
with port 0 and one with port 6379 (mirroring the repo's own renderer
tests). -/
def c5TestSet : DependencySet :=
  ((NewDependencySet "web").Add
      { Source := "web", Target := "unknown-svc", Port := 0, Protocol := "TCP" }).Add
    { Source := "web", Target := "redis", Port := 6379, Protocol := "TCP" }

/-- C5: a fact with a non-positive port never yields a `port:` line.  In
the single-service mode every collected egress rule has a positive port,
and every skipped fact's target is listed in the `# Skipped (no port):`
comment that terminates the output; in the per-service mode the rendered
egress body is exactly that of the positive-port facts, and an ingress
entry for a non-positive port renders no `ports:` block.  On the concrete
test set, `port: 0` occurs in neither rendering while `port: 6379` and
the skipped comment do occur. -/
theorem port_nonpositive_excluded :
    (∀ (deps : List NetworkDependency) (seen : List String) r,
        r ∈ (npCollectAux deps seen).1 → 0 < r.port) ∧
    (∀ (ds : DependencySet) dep, dep ∈ ds.deps → dep.Port ≤ 0 →
        dep.Target ∈ dedupeStrings (npCollectAux ds.Dependencies []).2 ∧
        ∃ pre, NetworkPolicy ds = pre ++ ("# Skipped (no port): " ++
          String.intercalate ", " (dedupeStrings (npCollectAux ds.Dependencies []).2) ++
          "\n")) ∧
    (∀ l : List NetworkDependency, String.join (l.map psEgressItem) =
        String.join ((l.filter (fun d => decide (0 < d.Port))).map psEgressItem)) ∧
    (∀ dep : NetworkDependency, dep.Port ≤ 0 →
        psIngressItem dep = if dep.Source = "" then "" else renderIngressFrom dep.Source) ∧
    strOccurs "port: 0" (NetworkPolicy c5TestSet) = false ∧
    strOccurs "# Skipped (no port): unknown-svc" (NetworkPolicy c5TestSet) = true ∧
    strOccurs "port: 6379" (NetworkPolicy c5TestSet) = true ∧
    strOccurs "port: 0" (PerServiceNetworkPolicy c5TestSet) = false ∧
    strOccurs "port: 8080" (PerServiceNetworkPolicy c5TestSet) = false := by
  refine ⟨npCollect_rules_pos, ?_, psEgress_join_filter, ?_, by decide, by decide, by decide,
    by decide, by decide⟩
  · intro ds dep hmem hport
    have hmemD : dep ∈ ds.Dependencies :=
      (List.perm_insertionSort keyLE ds.deps).mem_iff.mpr hmem
    have hdeps : ds.Dependencies ≠ [] := List.ne_nil_of_mem hmemD
    have hsk : dep.Target ∈ (npCollectAux ds.Dependencies []).2 :=
      npCollect_skipped ds.Dependencies [] dep hmemD hport
    have hskd : dep.Target ∈ dedupeStrings (npCollectAux ds.Dependencies []).2 :=
      mem_dedupeStrings hsk
    refine ⟨hskd, ?_⟩
    have hskne : dedupeStrings (npCollectAux ds.Dependencies []).2 ≠ [] :=
      List.ne_nil_of_mem hskd
    simp only [NetworkPolicy]
    rw [if_neg hdeps, if_pos hskne]
    exact ⟨_, rfl⟩
  · intro dep hport
    unfold psIngressItem
    by_cases hs : dep.Source = ""
    · rw [if_pos hs, if_pos hs]
    · rw [if_neg hs, if_neg hs, if_neg (not_lt.mpr hport)]
      simp

/-- Witness for C5 at the test set's port-0 fact. -/
theorem port_nonpositive_excluded_witness :
    ({ Source := "web", Target := "unknown-svc", Port := 0,
        Protocol := "TCP" } : NetworkDependency).Target ∈
      dedupeStrings (npCollectAux c5TestSet.Dependencies []).2 ∧
    ∃ pre, NetworkPolicy c5TestSet = pre ++ ("# Skipped (no port): " ++
      String.intercalate ", " (dedupeStrings (npCollectAux c5TestSet.Dependencies []).2) ++
      "\n") :=
  port_nonpositive_excluded.2.1 c5TestSet
    { Source := "web", Target := "unknown-svc", Port := 0, Protocol := "TCP" }
    (by decide) (by decide)

/-- The concrete set refuting C6: service `a` has exactly one egress
fact, and its port is 0. -/
def c6TestSet : DependencySet :=
  (NewDependencySet "m").Add { Source := "a", Target := "b", Port := 0, Protocol := "TCP" }

/-- Counterexample to C6: service `a`'s egress facts all have port ≤ 0,
yet its per-service policy still contains the DNS egress rule to the
kube-system namespace — the code appends the DNS rule whenever the
service has any egress fact at all, regardless of port. -/
theorem dns_egress_port_zero_cex :
    c6TestSet.EgressFor "a" ≠ [] ∧
    (c6TestSet.EgressFor "a").all (fun d => decide (d.Port ≤ 0)) = true ∧
    strOccurs "kubernetes.io/metadata.name: kube-system"
      (renderServicePolicy c6TestSet "a") = true ∧
    strOccurs "kubernetes.io/metadata.name: kube-system"
      (PerServiceNetworkPolicy c6TestSet) = true := by
  refine ⟨by decide, by decide, by decide, by decide⟩

/-- C6 as amended: in per-service rendering the DNS egress rule is
appended to a service's policy exactly when the service has at least one
egress FACT (of any port): with an egress fact the policy ends in the DNS
block, and with none the policy is just the header plus the ingress
section (no egress section, hence no DNS rule). -/
theorem dns_egress_iff_egress_facts (ds : DependencySet) (svc : String) :
    (ds.EgressFor svc ≠ [] → ∃ pre, renderServicePolicy ds svc = pre ++ npDNSBlock) ∧
    (ds.EgressFor svc = [] →
      renderServicePolicy ds svc = psHeader (sanitizeName svc) ++ psIngressSection ds svc) := by
  constructor
  · intro hne
    simp only [renderServicePolicy]
    rw [if_pos hne, ← String.append_assoc]
    exact ⟨_, rfl⟩
  · intro hnil
    simp only [renderServicePolicy]
    rw [if_neg (by simp [hnil])]
    simp

/-- Witness for the amended C6 at the concrete set: `a` has one (port-0)
egress fact, so its policy ends in the DNS block; `b` has none, so its
policy has no egress section. -/
theorem dns_egress_iff_egress_facts_witness :
    (∃ pre, renderServicePolicy c6TestSet "a" = pre ++ npDNSBlock) ∧
    renderServicePolicy c6TestSet "b" =
      psHeader (sanitizeName "b") ++ psIngressSection c6TestSet "b" :=
  ⟨(dns_egress_iff_egress_facts c6TestSet "a").1 (by decide),
   (dns_egress_iff_egress_facts c6TestSet "b").2 (by decide)⟩

/-- Counterexample to C7: the generic `extractFromValue` (the bare
host:port arm used by the Spring, `.env` and Compose-environment paths)
has no digest (`sha`) or port-range guard — `sha256:1234` yields a fact
with host `sha256`, and `db:99999` yields a fact with port 99999, while
the Kubernetes-flavored recognizer rejects both. -/
theorem hostport_guard_missing_cex :
    extractFromValue "sha256:1234" "f" =
      some { Source := "", Target := "sha256", Port := 1234, Protocol := "TCP",
             Description := "network service", Confidence := .medium, SourceFile := "f" } ∧
    extractFromValue "db:99999" "f" =
      some { Source := "", Target := "db", Port := 99999, Protocol := "TCP",
             Description := "network service", Confidence := .medium, SourceFile := "f" } ∧
    strLeads "sha" "sha256" = true ∧
    extractDepsFromValue "sha256:1234" "s" "c" .high "f" = [] ∧
    extractDepsFromValue "db:99999" "s" "c" .high "f" = [] := by
  refine ⟨by decide, by decide, by decide, by decide, by decide⟩

/-- C7 as amended: only the Kubernetes-flavored recognizer's bare
host:port rule carries the guard — when neither the URL rule nor the DNS
rule fires, every produced fact has a host not beginning with `sha` and a
port within `[1, 65535]`. -/
theorem k8s_hostport_guard (value source context : String) (conf : Confidence)
    (path : String) (hurl : k8sUrlHit value = none)
    (hdns : dnsSearch value.data = none) :
    ∀ d ∈ extractDepsFromValue value source context conf path,
      strLeads "sha" d.Target = false ∧ 1 ≤ d.Port ∧ d.Port ≤ 65535 := by
  intro d hd
  unfold extractDepsFromValue at hd
  simp only [hurl, hdns] at hd
  rcases List.mem_filterMap.mp hd with ⟨hp, _, hf⟩
  split at hf
  · exact absurd hf (by simp)
  · rename_i hc
    rcases Option.some.inj hf with rfl
    have hc2 : (strLeads "sha" (⟨hp.1⟩ : String) = false ∧ ¬ digitsToNat hp.2 = 0) ∧
        digitsToNat hp.2 ≤ 65535 := by
      have hfalse := eq_false_of_ne_true hc
      simpa [Bool.or_eq_false_iff, decide_eq_false_iff_not] using hfalse
    refine ⟨hc2.1.1, ?_, ?_⟩
    · show (1 : Int) ≤ (digitsToNat hp.2 : Int)
      exact_mod_cast Nat.one_le_iff_ne_zero.mpr hc2.1.2
    · show (digitsToNat hp.2 : Int) ≤ 65535
      exact_mod_cast hc2.2

/-- The fact the k8s recognizer produces for `db:8080` (used by the
witness of the amended C7). -/
def c7GuardDep : NetworkDependency :=
  { Source := "s", Target := "db", Port := 8080, Protocol := "TCP",
    Description := "c: host:port db:8080", Confidence := .high, SourceFile := "f" }

/-- Witness for the amended C7: at `db:8080` the k8s recognizer's single
produced fact satisfies the guard. -/
theorem k8s_hostport_guard_witness :
    strLeads "sha" c7GuardDep.Target = false ∧
      1 ≤ c7GuardDep.Port ∧ c7GuardDep.Port ≤ 65535 :=
  k8s_hostport_guard "db:8080" "s" "c" .high "f" (by decide) (by decide)
    c7GuardDep (by decide)

theorem leadsWith_append_same :
    ∀ x y z : List Char, leadsWith (x ++ y) (x ++ z) = leadsWith y z := by
  intro x
  induction x with
  | nil => intro y z; rfl
  | cons c t ih =>
    intro y z
    simp [leadsWith, ih]

theorem occursIn_of_leadsWith {p s : List Char} (h : leadsWith p s = true) :
    occursIn p s = true := by
  cases s <;> simp [occursIn, h]

theorem occursIn_cons {p t : List Char} (c : Char) (h : occursIn p t = true) :
    occursIn p (c :: t) = true := by
  rw [occursIn, h]
  simp

/-- A successful `dnsAfterG1` means the remainder literally starts with
`.<g2>.svc.cluster.local`. -/
theorem dnsAfterG1_leads {rest g2 : List Char} (h : dnsAfterG1 rest = some g2) :
    leadsWith ('.' :: (g2 ++ ".svc.cluster.local".data)) rest = true := by
  cases rest with
  | nil => simp [dnsAfterG1] at h
  | cons c1 r1 =>
    cases r1 with
    | nil => simp [dnsAfterG1] at h
    | cons d r3 =>
      simp only [dnsAfterG1] at h
      by_cases hcd : c1 = '.' ∧ isAlnum d = true
      · rw [if_pos hcd] at h
        by_cases hlit : leadsWith ".svc.cluster.local".data (r3.dropWhile classNoDot) = true
        · rw [if_pos hlit] at h
          rcases Option.some.inj h with rfl
          rcases hcd with ⟨rfl, _⟩
          have hsplit : d :: r3 = (d :: r3.takeWhile classNoDot) ++ r3.dropWhile classNoDot := by
            simp [List.takeWhile_append_dropWhile]
          have hmain : leadsWith ((d :: r3.takeWhile classNoDot) ++ ".svc.cluster.local".data)
              (d :: r3) = true := by
            calc leadsWith ((d :: r3.takeWhile classNoDot) ++ ".svc.cluster.local".data)
                  (d :: r3)
                = leadsWith ((d :: r3.takeWhile classNoDot) ++ ".svc.cluster.local".data)
                  ((d :: r3.takeWhile classNoDot) ++ r3.dropWhile classNoDot) := by
                  rw [← hsplit]
              _ = leadsWith ".svc.cluster.local".data (r3.dropWhile classNoDot) :=
                  leadsWith_append_same _ _ _
              _ = true := hlit
          simpa [leadsWith] using hmain
        · rw [if_neg hlit] at h
          exact absurd h (by simp)
      · rw [if_neg hcd] at h
        exact absurd h (by simp)

/-- Soundness of the group-1 backtracking: a match splits the scanned
text as `g1` followed by `.<g2>.svc.cluster.local...`. -/
theorem dnsTryG1_sound :
    ∀ (g1rev rest g1 g2 : List Char), dnsTryG1 g1rev rest = some (g1, g2) →
      ∃ t, g1rev.reverse ++ rest = g1 ++ t ∧
        leadsWith ('.' :: (g2 ++ ".svc.cluster.local".data)) t = true := by
  intro g1rev
  induction g1rev with
  | nil => intro rest g1 g2 h; exact absurd h (by simp [dnsTryG1])
  | cons c g1rev ih =>
    intro rest g1 g2 h
    unfold dnsTryG1 at h
    cases hafter : dnsAfterG1 rest with
    | some g2x =>
      rw [hafter] at h
      have h2 := Option.some.inj h
      have hg1 : (c :: g1rev).reverse = g1 := congrArg Prod.fst h2
      have hg2 : g2x = g2 := congrArg Prod.snd h2
      subst hg1
      subst hg2
      exact ⟨rest, rfl, dnsAfterG1_leads hafter⟩
    | none =>
      rw [hafter] at h
      rcases ih (c :: rest) g1 g2 h with ⟨t, heq, hlead⟩
      refine ⟨t, ?_, hlead⟩
      rw [← heq]
      simp

/-- Soundness of a `k8sDNSRe` match at the start of the text. -/
theorem dnsMatchAt_sound {s g1 g2 : List Char} (h : dnsMatchAt s = some (g1, g2)) :
    ∃ t, s = g1 ++ t ∧
      leadsWith ('.' :: (g2 ++ ".svc.cluster.local".data)) t = true := by
  cases s with
  | nil => simp [dnsMatchAt] at h
  | cons c t =>
    simp only [dnsMatchAt] at h
    by_cases hc : isAlnum c = true
    · rw [if_pos hc] at h
      rcases dnsTryG1_sound _ _ _ _ h with ⟨t2, heq, hlead⟩
      refine ⟨t2, ?_, hlead⟩
      rw [← heq]
      simp [List.takeWhile_append_dropWhile]
    · rw [if_neg hc] at h
      exact absurd h (by simp)

/-- Soundness of the `k8sDNSRe` search: the matched text
`<g1>.<g2>.svc.cluster.local` occurs in the scanned value. -/
theorem dnsSearch_sound :
    ∀ {s g1 g2 : List Char}, dnsSearch s = some (g1, g2) →
      occursIn (g1 ++ '.' :: (g2 ++ ".svc.cluster.local".data)) s = true := by
  intro s
  induction s with
  | nil => intro g1 g2 h; exact absurd h (by simp [dnsSearch])
  | cons c t ih =>
    intro g1 g2 h
    unfold dnsSearch at h
    cases hat : dnsMatchAt (c :: t) with
    | some r =>
      rw [hat] at h
      have h2 := Option.some.inj h
      have hg1 : r.1 = g1 := congrArg Prod.fst h2
      have hg2 : r.2 = g2 := congrArg Prod.snd h2
      subst hg1
      subst hg2
      have hat2 : dnsMatchAt (c :: t) = some (r.1, r.2) := by
        rw [hat]
      rcases dnsMatchAt_sound hat2 with ⟨t2, heq, hlead⟩
      refine occursIn_of_leadsWith ?_
      rw [heq]
      rw [show leadsWith (r.1 ++ '.' :: (r.2 ++ ".svc.cluster.local".data)) (r.1 ++ t2) =
        leadsWith ('.' :: (r.2 ++ ".svc.cluster.local".data)) t2 from
        leadsWith_append_same _ _ _]
      exact hlead
    | none =>
      rw [hat] at h
      exact occursIn_cons c (ih h)

/-- Counterexample to C4: the value `redis://cache.prod.svc.cluster.local:6379`
contains the Kubernetes DNS name `cache.prod.svc.cluster.local` (the DNS
regex matches it with service `cache`, namespace `prod`), yet the
recognizer's URL rule fires first and the produced fact's target is the
full hostname — the `.svc.cluster.local` suffix is NOT dropped. -/
theorem k8s_dns_url_priority_cex :
    dnsSearch "redis://cache.prod.svc.cluster.local:6379".data =
      some ("cache".data, "prod".data) ∧
    extractDepsFromValue "redis://cache.prod.svc.cluster.local:6379" "web" "REDIS_URL"
        .high "f" =
      [{ Source := "web", Target := "cache.prod.svc.cluster.local", Port := 6379,
         Protocol := "TCP",
         Description := "REDIS_URL: URL redis://cache.prod.svc.cluster.local:6379",
         Confidence := .high, SourceFile := "f" }] ∧
    strOccurs ".svc.cluster.local" "cache.prod.svc.cluster.local" = true ∧
    ("cache.prod.svc.cluster.local" : String) ≠ "cache.prod" := by
  refine ⟨by decide, by decide, by decide, by decide⟩

/-- C4 as amended: when the URL rule does not fire and `k8sDNSRe` matches
with groups `g1` (service part) and `g2` (namespace), the produced fact's
target is exactly `g1.g2` — the matched text `g1.g2.svc.cluster.local`,
which occurs in the value, with the `.svc.cluster.local` suffix dropped —
and the port is that of the first host:port match in the value (0 if
none). -/
theorem k8s_dns_normalization (value source context : String) (conf : Confidence)
    (path : String) (g1 g2 : List Char) (hurl : k8sUrlHit value = none)
    (hdns : dnsSearch value.data = some (g1, g2)) :
    extractDepsFromValue value source context conf path =
      [{ Source := source, Target := (⟨g1⟩ : String) ++ "." ++ (⟨g2⟩ : String),
         Port := dnsPortOf value, Protocol := "TCP",
         Description := context ++ ": K8s service DNS " ++ value, Confidence := conf,
         SourceFile := path }] ∧
    occursIn (g1 ++ '.' :: (g2 ++ ".svc.cluster.local".data)) value.data = true := by
  constructor
  · unfold extractDepsFromValue
    simp only [hurl, hdns]
  · exact dnsSearch_sound hdns

/-- Witness for the amended C4 at the spec's own example value. -/
theorem k8s_dns_normalization_witness :
    extractDepsFromValue "postgres-0.postgres.db.svc.cluster.local:5432" "web" "DB_ADDR"
        .high "f" =
      [{ Source := "web",
         Target := (⟨"postgres-0.postgres".data⟩ : String) ++ "." ++ (⟨"db".data⟩ : String),
         Port := dnsPortOf "postgres-0.postgres.db.svc.cluster.local:5432",
         Protocol := "TCP",
         Description := "DB_ADDR" ++ ": K8s service DNS " ++
           "postgres-0.postgres.db.svc.cluster.local:5432",
         Confidence := .high, SourceFile := "f" }] ∧
    occursIn ("postgres-0.postgres".data ++ '.' :: ("db".data ++ ".svc.cluster.local".data))
      "postgres-0.postgres.db.svc.cluster.local:5432".data = true :=
  k8s_dns_normalization "postgres-0.postgres.db.svc.cluster.local:5432" "web" "DB_ADDR"
    .high "f" "postgres-0.postgres".data "db".data (by decide) (by decide)

/-- `mergeUnique` keeps every fact already in the base list. -/
theorem mem_mergeUnique_left :
    ∀ (extra base : List NetworkDependency) (x : NetworkDependency),
      x ∈ base → x ∈ mergeUnique base extra := by
  intro extra
  induction extra with
  | nil => intro base x h; exact h
  | cons d rest ih =>
    intro base x h
    show x ∈ List.foldl _ _ (d :: rest)
    rw [List.foldl_cons]
    by_cases hs : base.any (fun y => mergeKey y = mergeKey d)
    · have : (if base.any (fun y => mergeKey y = mergeKey d) then base
          else base ++ [d]) = base := if_pos hs
      rw [this]
      exact ih base x h
    · have : (if base.any (fun y => mergeKey y = mergeKey d) then base
          else base ++ [d]) = base ++ [d] := if_neg hs
      rw [this]
      exact ih (base ++ [d]) x (List.mem_append_left _ h)

/-- The fallback scan of `parseSpringProperties` never removes facts. -/
theorem mem_springProps_fold :
    ∀ (props : List (String × String)) (path : String)
      (acc : List NetworkDependency) (x : NetworkDependency), x ∈ acc →
      x ∈ props.foldl
        (fun acc kv =>
          if isHandledSpringKey kv.1 then acc
          else
            match extractFromValue kv.2 path with
            | some d => mergeUnique acc [d]
            | none => acc)
        acc := by
  intro props
  induction props with
  | nil => intro path acc x h; exact h
  | cons kv rest ih =>
    intro path acc x h
    rw [List.foldl_cons]
    by_cases hk : isHandledSpringKey kv.1
    · rw [if_pos hk]
      exact ih path acc x h
    · rw [if_neg hk]
      cases hev : extractFromValue kv.2 path with
      | some d => exact ih path _ x (mem_mergeUnique_left [d] acc x h)
      | none => exact ih path acc x h

/-- Counterexample to C8: in the properties dialect the Spring Boot 3.x
key path is not checked — `spring.data.redis.host=redis-boot3` produces
no fact at all, while the same host in the YAML dialect's
`spring.data.redis.host` field yields the default-port-6379 fact. -/
theorem spring_props_data_redis_cex :
    springPropsDeps [("spring.data.redis.host", "redis-boot3")] "application.properties" =
      [] ∧
    extractSpringDeps { dataRedis := { Host := "redis-boot3" } } "application.yml" =
      [{ Source := "", Target := "redis-boot3", Port := 6379, Protocol := "TCP",
         Description := "Redis", Confidence := .high, SourceFile := "application.yml" }] := by
  refine ⟨by decide, by decide⟩

/-- C8 as amended: the YAML dialect checks both the 2.x
(`spring.redis.*`) and 3.x (`spring.data.redis.*`) key paths, defaulting
the port to 6379 when it is absent (decoded as 0); the properties dialect
checks only the 2.x keys (defaulting to 6379 when `spring.redis.port` is
absent), and a lone `spring.data.redis.host` key falls through to the
generic value recognizer, producing no Redis fact when that recognizer
finds nothing in the host value. -/
theorem spring_redis_default_port :
    (∀ (cfg : SpringConfig) (path : String), cfg.redis.Host ≠ "" →
      { Source := "", Target := cfg.redis.Host,
        Port := if cfg.redis.Port = 0 then 6379 else cfg.redis.Port, Protocol := "TCP",
        Description := "Redis", Confidence := .high,
        SourceFile := path } ∈ extractSpringDeps cfg path) ∧
    (∀ (cfg : SpringConfig) (path : String), cfg.dataRedis.Host ≠ "" →
      { Source := "", Target := cfg.dataRedis.Host,
        Port := if cfg.dataRedis.Port = 0 then 6379 else cfg.dataRedis.Port,
        Protocol := "TCP", Description := "Redis", Confidence := .high,
        SourceFile := path } ∈ extractSpringDeps cfg path) ∧
    (∀ (props : List (String × String)) (path host : String),
      propsLookup props "spring.redis.host" = some host →
      propsLookup props "spring.redis.port" = none →
      { Source := "", Target := host, Port := 6379, Protocol := "TCP",
        Description := "Redis", Confidence := .high,
        SourceFile := path } ∈ springPropsDeps props path) ∧
    (∀ (host path : String), extractFromValue host path = none →
      springPropsDeps [("spring.data.redis.host", host)] path = []) := by
  refine ⟨?_, ?_, ?_, ?_⟩
  · intro cfg path h
    unfold extractSpringDeps
    rw [if_pos h]
    simp [List.mem_append]
  · intro cfg path h
    unfold extractSpringDeps
    rw [if_pos h]
    simp [List.mem_append]
  · intro props path host hhost hport
    unfold springPropsDeps
    refine mem_springProps_fold props path _ _ ?_
    rw [hhost, hport]
    simp [List.mem_append]
  · intro host path hev
    unfold springPropsDeps
    have h1 : propsLookup [("spring.data.redis.host", host)] "spring.datasource.url" =
        none := by simp [propsLookup]
    have h2 : propsLookup [("spring.data.redis.host", host)] "spring.redis.host" =
        none := by simp [propsLookup]
    have h3 : propsLookup [("spring.data.redis.host", host)]
        "spring.kafka.bootstrap-servers" = none := by simp [propsLookup]
    have h4 : propsLookup [("spring.data.redis.host", host)] "spring.rabbitmq.host" =
        none := by simp [propsLookup]
    have h5 : propsLookup [("spring.data.redis.host", host)] "server.port" = none := by
      simp [propsLookup]
    rw [h1, h2, h3, h4, h5]
    simp only [List.foldl_cons, List.foldl_nil]
    rw [if_neg (show ¬ isHandledSpringKey "spring.data.redis.host" = true by decide)]
    rw [hev]
    simp

/-- Witness for the amended C8 at concrete configurations. -/
theorem spring_redis_default_port_witness :
    ({ Source := "", Target := ({ redis := { Host := "redis-2x" } } : SpringConfig).redis.Host,
        Port := if ({ redis := { Host := "redis-2x" } } : SpringConfig).redis.Port = 0
          then 6379 else ({ redis := { Host := "redis-2x" } } : SpringConfig).redis.Port,
        Protocol := "TCP", Description := "Redis", Confidence := .high,
        SourceFile := "a.yml" } : NetworkDependency) ∈
      extractSpringDeps { redis := { Host := "redis-2x" } } "a.yml" ∧
    ({ Source := "", Target := "redis-props", Port := 6379, Protocol := "TCP",
        Description := "Redis", Confidence := .high,
        SourceFile := "a.properties" } : NetworkDependency) ∈
      springPropsDeps [("spring.redis.host", "redis-props")] "a.properties" ∧
    springPropsDeps [("spring.data.redis.host", "redis-boot3")] "a.properties" = [] :=
  ⟨spring_redis_default_port.1 { redis := { Host := "redis-2x" } } "a.yml" (by decide),
   spring_redis_default_port.2.2.1 [("spring.redis.host", "redis-props")] "a.properties"
     "redis-props" (by decide) (by decide),
   spring_redis_default_port.2.2.2 "redis-boot3" "a.properties" (by decide)⟩

end Segspec
